import Mathlib

/-!
Verification of `src/utility/md5_checker.cpp`.

The program brute-force searches for strings whose MD5 digest buffer contains a
target byte pattern.  We embed it shallowly: byte strings (`std::basic_string
<unsigned char>`) become `List Nat` with entries below 256, machine words become
`Nat` reduced modulo `2 ^ 32` or `2 ^ 64` where the C code overflows, and the
output stream becomes a list of events.

The external hash routine `MD5` from OpenSSL computes the MD5 algorithm of
RFC 1321 and writes exactly 16 digest bytes to the start of the supplied
buffer; we implement that algorithm here so concrete runs can be evaluated.
-/

set_option maxRecDepth 40000

namespace MD5Checker

/-! Section: MD5 (RFC 1321), the function computed by the `MD5` call in the source -/

/-- 32-bit mask. -/
def mask32 : Nat := 4294967295

/-- Left-rotation of a 32-bit word. -/
def rotl32 (x n : Nat) : Nat := ((x <<< n) ||| (x >>> (32 - n))) % 4294967296

/-- The 64 MD5 sine-derived constants `floor (2^32 * abs (sin (i+1)))`. -/
def mdK : List Nat :=
  [0xd76aa478, 0xe8c7b756, 0x242070db, 0xc1bdceee,
   0xf57c0faf, 0x4787c62a, 0xa8304613, 0xfd469501,
   0x698098d8, 0x8b44f7af, 0xffff5bb1, 0x895cd7be,
   0x6b901122, 0xfd987193, 0xa679438e, 0x49b40821,
   0xf61e2562, 0xc040b340, 0x265e5a51, 0xe9b6c7aa,
   0xd62f105d, 0x02441453, 0xd8a1e681, 0xe7d3fbc8,
   0x21e1cde6, 0xc33707d6, 0xf4d50d87, 0x455a14ed,
   0xa9e3e905, 0xfcefa3f8, 0x676f02d9, 0x8d2a4c8a,
   0xfffa3942, 0x8771f681, 0x6d9d6122, 0xfde5380c,
   0xa4beea44, 0x4bdecfa9, 0xf6bb4b60, 0xbebfbc70,
   0x289b7ec6, 0xeaa127fa, 0xd4ef3085, 0x04881d05,
   0xd9d4d039, 0xe6db99e5, 0x1fa27cf8, 0xc4ac5665,
   0xf4292244, 0x432aff97, 0xab9423a7, 0xfc93a039,
   0x655b59c3, 0x8f0ccc92, 0xffeff47d, 0x85845dd1,
   0x6fa87e4f, 0xfe2ce6e0, 0xa3014314, 0x4e0811a1,
   0xf7537e82, 0xbd3af235, 0x2ad7d2bb, 0xeb86d391]

/-- The 64 MD5 per-round left-rotation amounts. -/
def mdS : List Nat :=
  [7, 12, 17, 22, 7, 12, 17, 22, 7, 12, 17, 22, 7, 12, 17, 22,
   5, 9, 14, 20, 5, 9, 14, 20, 5, 9, 14, 20, 5, 9, 14, 20,
   4, 11, 16, 23, 4, 11, 16, 23, 4, 11, 16, 23, 4, 11, 16, 23,
   6, 10, 15, 21, 6, 10, 15, 21, 6, 10, 15, 21, 6, 10, 15, 21]

/-- One MD5 round: `M` reads the 16 message words of the current chunk. -/
def md5round (M : Nat → Nat) (st : Nat × Nat × Nat × Nat) (i : Nat) :
    Nat × Nat × Nat × Nat :=
  let a := st.1
  let b := st.2.1
  let c := st.2.2.1
  let d := st.2.2.2
  let f :=
    if i < 16 then (b &&& c) ||| ((b ^^^ mask32) &&& d)
    else if i < 32 then (d &&& b) ||| ((d ^^^ mask32) &&& c)
    else if i < 48 then b ^^^ c ^^^ d
    else c ^^^ (b ||| (d ^^^ mask32))
  let g :=
    if i < 16 then i
    else if i < 32 then (5 * i + 1) % 16
    else if i < 48 then (3 * i + 5) % 16
    else (7 * i) % 16
  let tmp := (f + a + mdK.getD i 0 + M g) % 4294967296
  (d, (b + rotl32 tmp (mdS.getD i 0)) % 4294967296, b, c)

/-- Process one 16-word chunk, updating the running state. -/
def md5chunk (st : Nat × Nat × Nat × Nat) (ws : List Nat) :
    Nat × Nat × Nat × Nat :=
  let r := (List.range 64).foldl (md5round (fun g => ws.getD g 0)) st
  ((st.1 + r.1) % 4294967296,
   (st.2.1 + r.2.1) % 4294967296,
   (st.2.2.1 + r.2.2.1) % 4294967296,
   (st.2.2.2 + r.2.2.2) % 4294967296)

/-- MD5 padding: append `0x80`, zeros to 56 mod 64, then the 64-bit
little-endian bit length. -/
def md5pad (m : List Nat) : List Nat :=
  let L := m.length
  let padlen := (119 - L % 64) % 64
  let bits := (8 * L) % 18446744073709551616
  m ++ [128] ++ List.replicate padlen 0 ++
    (List.range 8).map (fun j => (bits >>> (8 * j)) % 256)

/-- Group bytes into little-endian 32-bit words. -/
def toWords : List Nat → List Nat
  | b0 :: b1 :: b2 :: b3 :: rest =>
      (b0 + 256 * b1 + 65536 * b2 + 16777216 * b3) :: toWords rest
  | _ => []

/-- Split a word list into chunks of 16 words (padded input is always a
multiple of 16 words long). -/
def chunk16 : List Nat → List (List Nat)
  | x0 :: x1 :: x2 :: x3 :: x4 :: x5 :: x6 :: x7 ::
    x8 :: x9 :: x10 :: x11 :: x12 :: x13 :: x14 :: x15 :: rest =>
      [x0, x1, x2, x3, x4, x5, x6, x7, x8, x9, x10, x11, x12, x13, x14, x15] ::
        chunk16 rest
  | _ => []

/-- Serialize a 32-bit word to 4 little-endian bytes. -/
def wordLE (x : Nat) : List Nat :=
  [x % 256, x >>> 8 % 256, x >>> 16 % 256, x >>> 24 % 256]

/-- The MD5 digest (16 bytes) of a byte string, per RFC 1321; this is the
function the source invokes as `MD5(tmp.c_str(), tmp.size(), ...)`. -/
def md5 (m : List Nat) : List Nat :=
  let ws := toWords (md5pad m)
  let fin := (chunk16 ws).foldl md5chunk
    (0x67452301, 0xefcdab89, 0x98badcfe, 0x10325476)
  wordLE fin.1 ++ wordLE fin.2.1 ++ wordLE fin.2.2.1 ++ wordLE fin.2.2.2

/-! Section: The candidate generator `generate_string` -/

/-- The character set `"0123456789abcdefghjklmnopqrstuvwxyz"` (35 characters;
the letter `i` is absent).  `sizeof(charset)` in the source is 36, counting
the terminating NUL byte. -/
def charset : List Nat :=
  [48, 49, 50, 51, 52, 53, 54, 55, 56, 57,
   97, 98, 99, 100, 101, 102, 103, 104, 106, 107, 108, 109, 110, 111, 112,
   113, 114, 115, 116, 117, 118, 119, 120, 121, 122]

/-- One generated character.  The source computes
`charset[rand() % sizeof(charset) - 1]`; since `%` binds tighter than `-` the
index is `(rand() % 36) - 1`, which is `-1` whenever `rand() % 36 = 0` — a
read outside the array, modelled as `none`.  For the other residues the index
is `0 .. 34`, inside the 35 proper characters. -/
def genChar (r : Nat) : Option Nat :=
  if r % 36 = 0 then none else charset.get? (r % 36 - 1)

/-- `generate_string(result, n)` with the successive values of `rand()` given
by `rand 0, rand 1, ...`: after `result.resize(n)`, every position
`0 ≤ i < n` is overwritten with the character drawn from `rand i`. -/
def generate_string (rand : Nat → Nat) (n : Nat) : List (Option Nat) :=
  (List.range n).map (fun i => genChar (rand i))

/-! Section: The search loop `search_md5_containing`

Byte strings are `List Nat`; the candidate produced by `generate_string` at
iteration `i` is abstracted as a stream `gen : Nat → List Nat` (the source
fixes its length to `str_size`).  The digest string `md5` of the source is the
`buf` field below: `md5.resize(130)` zero-fills it once, and each `MD5` call
overwrites exactly its first 16 bytes. -/

/-- ASCII `tolower`, as applied to each pattern character. -/
def toLowerByte (c : Nat) : Nat := if 65 ≤ c ∧ c ≤ 90 then c + 32 else c

/-- `md5.find(pattern) != md5.npos`: some position of `buf` starts a full
occurrence of `pattern`. -/
def substrFind (pattern buf : List Nat) : Bool :=
  (List.range (buf.length + 1)).any
    (fun j => (buf.drop j).take pattern.length == pattern)

/-- One line written to standard output. -/
inductive OutputEvent where
  | progress (k : Nat)
  | matched (tmp : List Nat) (digestBuf : List Nat)
deriving DecidableEq

/-- The loop state: the progress counter `k`, the 130-byte digest string
(`buf`), and the output lines and executed loop indices so far, most recent
first. -/
structure LoopState where
  k : Nat
  buf : List Nat
  revEvents : List OutputEvent
  revIters : List Nat
deriving DecidableEq

/-- One pass of the loop body at index `i`: a progress line when
`i % 10000000 = 0` (printing the incremented counter), then
`generate_string`, then `MD5` overwriting the first 16 bytes of the digest
buffer, then a match line when the pattern occurs in the buffer. -/
def loopBody (pattern : List Nat) (gen : Nat → List Nat) (i : Nat)
    (s : LoopState) : LoopState :=
  let k1 := if i % 10000000 = 0 then s.k + 1 else s.k
  let ev1 := if i % 10000000 = 0 then
    OutputEvent.progress (s.k + 1) :: s.revEvents else s.revEvents
  let tmp := gen i
  let buf1 := md5 tmp ++ s.buf.drop 16
  let ev2 := if substrFind pattern buf1 then
    OutputEvent.matched tmp buf1 :: ev1 else ev1
  ⟨k1, buf1, ev2, i :: s.revIters⟩

/-- The loop `for (size_t i = 1; i < ulimit; ++i)`, resumed at index `i`. -/
def runFrom (pattern : List Nat) (gen : Nat → List Nat) (ulimit : Nat)
    (i : Nat) (s : LoopState) : LoopState :=
  if i < ulimit then runFrom pattern gen ulimit (i + 1) (loopBody pattern gen i s)
  else s
termination_by ulimit - i

/-- The state on entry to the loop: `k = 0`, `md5.resize(130)` zero-fills the
digest string, nothing printed yet. -/
def initState : LoopState := ⟨0, List.replicate 130 0, [], []⟩

/-- `search_md5_containing(substr, str_size, ulimit)`: lower-case the pattern
once, then run the loop from `i = 1`. -/
def search_md5_containing (substr : List Nat) (gen : Nat → List Nat)
    (ulimit : Nat) : LoopState :=
  runFrom (substr.map toLowerByte) gen ulimit 1 initState

/-- Output lines in emission order. -/
def events (s : LoopState) : List OutputEvent := s.revEvents.reverse

/-- Indices of the executed loop iterations, in order. -/
def itersOf (s : LoopState) : List Nat := s.revIters.reverse

/-- Select a progress line. -/
def progOf : OutputEvent → Option Nat
  | .progress k => some k
  | _ => none

/-- Select a match line, as the pair (candidate, digest buffer). -/
def matchedOf : OutputEvent → Option (List Nat × List Nat)
  | .matched t b => some (t, b)
  | _ => none

/-- The counters of the progress lines, in emission order. -/
def progressCounters (s : LoopState) : List Nat := (events s).filterMap progOf

/-- The match lines, in emission order. -/
def matchLines (s : LoopState) : List (List Nat × List Nat) :=
  (events s).filterMap matchedOf

/-! Section: `main` -/

/-- `isspace` on the C locale. -/
def isSpaceByte (c : Nat) : Bool := c == 32 || (9 ≤ c && c ≤ 13)

/-- `isdigit`. -/
def isDigitByte (c : Nat) : Bool := 48 ≤ c && c ≤ 57

/-- Value of a decimal digit run, most significant digit first. -/
def digitsVal (ds : List Nat) : Nat :=
  ds.foldl (fun acc c => 10 * acc + (c - 48)) 0

/-- `strtoul(arg, NULL, 10)`: skip whitespace, then an optional single sign,
then a run of decimal digits.  With no digits the result is 0; an
out-of-range value gives `ULONG_MAX`; a minus sign negates modulo `2^64`. -/
def strtoul10 (s : List Nat) : Nat :=
  let s1 := s.dropWhile isSpaceByte
  let neg : Bool := s1.headD 0 == 45
  let s2 := if s1.headD 0 == 45 || s1.headD 0 == 43 then s1.tail else s1
  let v := digitsVal (s2.takeWhile isDigitByte)
  if 18446744073709551615 < v then 18446744073709551615
  else if neg then (18446744073709551616 - v) % 18446744073709551616
  else v

/-- The assignment `int ulimit = strtoul(...)`: the `unsigned long` result is
wrapped to a twos-complement 32-bit `int` (the behaviour of the compilers
this file targets). -/
def ulongToInt (v : Nat) : Int :=
  if v % 4294967296 < 2147483648 then ((v % 4294967296 : Nat) : Int)
  else ((v % 4294967296 : Nat) : Int) - 4294967296

/-- The implicit `int → size_t` conversion at the call of
`search_md5_containing` (reduction modulo `2^64`). -/
def intToSizeT (x : Int) : Nat := (x % 18446744073709551616).toNat

/-- The iteration bound `main` passes to the search: `100` when no
command-line argument is given, otherwise `strtoul(argv[1], NULL, 10)`
converted through `int` and then `size_t`. -/
def mainUlimit (arg : Option (List Nat)) : Nat :=
  match arg with
  | none => 100
  | some s => intToSizeT (ulongToInt (strtoul10 s))

/-- `main`: search for the pattern of the three bytes 39, 61, 39 (apostrophe, equals sign, apostrophe) in candidates of
length 10, with the bound taken from the command line. -/
def mainRun (arg : Option (List Nat)) (gen : Nat → List Nat) : LoopState :=
  search_md5_containing [39, 61, 39] gen (mainUlimit arg)

/-! Section: Auxiliary definitions used by the proofs -/

/-- The 114 bytes of the digest string that no `MD5` call ever writes. -/
def zeros114 : List Nat := List.replicate 114 0

/-- The loop body executed exactly `n` times, at indices `i, ..., i + n - 1`;
`runFrom` with bound `ulimit` coincides with `runCount` for
`n = ulimit - i`. -/
def runCount (pattern : List Nat) (gen : Nat → List Nat) :
    Nat → Nat → LoopState → LoopState
  | 0, _, s => s
  | n + 1, i, s => runCount pattern gen n (i + 1) (loopBody pattern gen i s)

/-- The counters of the progress lines emitted over `n` iterations starting
at index `i` with counter value `k`. -/
def markersFrom (k i : Nat) : Nat → List Nat
  | 0 => []
  | n + 1 =>
      if i % 10000000 = 0 then (k + 1) :: markersFrom (k + 1) (i + 1) n
      else markersFrom k (i + 1) n

/-- The number of multiples of `10000000` among `i, ..., i + n - 1`. -/
def countMarks (i : Nat) : Nat → Nat
  | 0 => 0
  | n + 1 => (if i % 10000000 = 0 then 1 else 0) + countMarks (i + 1) n

/-- The candidate `"aaaaaaaa09"`: ten characters, all from `charset`. -/
def c10 : List Nat := [97, 97, 97, 97, 97, 97, 97, 97, 48, 57]

/-! Section: Basic lemmas -/

theorem md5_length (m : List Nat) : (md5 m).length = 16 := by
  simp [md5, wordLE]

theorem loopBody_k (pattern : List Nat) (gen : Nat → List Nat) (i : Nat)
    (s : LoopState) :
    (loopBody pattern gen i s).k = if i % 10000000 = 0 then s.k + 1 else s.k := rfl

theorem loopBody_buf (pattern : List Nat) (gen : Nat → List Nat) (i : Nat)
    (s : LoopState) :
    (loopBody pattern gen i s).buf = md5 (gen i) ++ s.buf.drop 16 := rfl

theorem loopBody_revIters (pattern : List Nat) (gen : Nat → List Nat) (i : Nat)
    (s : LoopState) :
    (loopBody pattern gen i s).revIters = i :: s.revIters := rfl

theorem loopBody_revEvents (pattern : List Nat) (gen : Nat → List Nat) (i : Nat)
    (s : LoopState) :
    (loopBody pattern gen i s).revEvents =
      (if substrFind pattern (md5 (gen i) ++ s.buf.drop 16) then
        [OutputEvent.matched (gen i) (md5 (gen i) ++ s.buf.drop 16)] else []) ++
      (if i % 10000000 = 0 then [OutputEvent.progress (s.k + 1)] else []) ++
      s.revEvents := by
  simp only [loopBody]
  split <;> split <;> simp

theorem runFrom_eq_runCount (pattern : List Nat) (gen : Nat → List Nat) :
    ∀ (n i : Nat) (s : LoopState),
      runFrom pattern gen (i + n) i s = runCount pattern gen n i s := by
  intro n
  induction n with
  | zero =>
      intro i s
      rw [runFrom]
      simp [runCount]
  | succ n ih =>
      intro i s
      rw [runFrom, if_pos (by omega : i < i + (n + 1))]
      have h := ih (i + 1) (loopBody pattern gen i s)
      rw [show i + 1 + n = i + (n + 1) by omega] at h
      rw [h]
      rfl

theorem runFrom_runCount (pattern : List Nat) (gen : Nat → List Nat)
    (ulimit i : Nat) (s : LoopState) :
    runFrom pattern gen ulimit i s = runCount pattern gen (ulimit - i) i s := by
  rcases le_or_lt i ulimit with h | h
  · obtain ⟨n, rfl⟩ : ∃ n, ulimit = i + n := ⟨ulimit - i, by omega⟩
    rw [show i + n - i = n by omega]
    exact runFrom_eq_runCount pattern gen n i s
  · rw [runFrom, if_neg (by omega), show ulimit - i = 0 by omega]
    rfl

theorem search_eq_runCount (substr : List Nat) (gen : Nat → List Nat)
    (ulimit : Nat) :
    search_md5_containing substr gen ulimit =
      runCount (substr.map toLowerByte) gen (ulimit - 1) 1 initState :=
  runFrom_runCount (substr.map toLowerByte) gen ulimit 1 initState

theorem runCount_revIters (pattern : List Nat) (gen : Nat → List Nat) :
    ∀ (n i : Nat) (s : LoopState),
      (runCount pattern gen n i s).revIters =
        (List.range' i n).reverse ++ s.revIters := by
  intro n
  induction n with
  | zero => intro i s; simp [runCount]
  | succ n ih =>
      intro i s
      rw [runCount, ih (i + 1), loopBody_revIters, List.range'_succ]
      simp

theorem runCount_inv (pattern : List Nat) (gen : Nat → List Nat) :
    ∀ (n i : Nat) (s : LoopState), s.buf.drop 16 = zeros114 →
      (runCount pattern gen n i s).buf.drop 16 = zeros114 ∧
      ∀ t b, OutputEvent.matched t b ∈ (runCount pattern gen n i s).revEvents →
        b = md5 t ++ zeros114 ∨ OutputEvent.matched t b ∈ s.revEvents := by
  intro n
  induction n with
  | zero => intro i s h; exact ⟨h, fun t b hb => Or.inr hb⟩
  | succ n ih =>
      intro i s h
      rw [runCount]
      have hbuf : (loopBody pattern gen i s).buf.drop 16 = zeros114 := by
        rw [loopBody_buf, h, ← md5_length (gen i), List.drop_left]
      refine ⟨(ih (i + 1) _ hbuf).1, fun t b hb => ?_⟩
      rcases (ih (i + 1) _ hbuf).2 t b hb with h1 | h1
      · exact Or.inl h1
      · rw [loopBody_revEvents, h] at h1
        simp only [List.mem_append] at h1
        rcases h1 with (h2 | h2) | h2
        · rcases (by split at h2 <;> simp_all :
            t = gen i ∧ b = md5 (gen i) ++ zeros114) with ⟨h3, h4⟩
          exact Or.inl (h4.trans (by rw [h3]))
        · exact absurd h2 (by split <;> simp)
        · exact Or.inr h2

theorem runCount_buf_last (pattern : List Nat) (gen : Nat → List Nat) :
    ∀ (n i : Nat) (s : LoopState), s.buf.drop 16 = zeros114 → 1 ≤ n →
      (runCount pattern gen n i s).buf = md5 (gen (i + n - 1)) ++ zeros114 := by
  intro n
  induction n with
  | zero => intro i s _ h; omega
  | succ n ih =>
      intro i s h _
      rw [runCount]
      rcases Nat.eq_zero_or_pos n with h0 | h0
      · subst h0
        rw [runCount, loopBody_buf, h]
        simp
      · have hbuf : (loopBody pattern gen i s).buf.drop 16 = zeros114 := by
          rw [loopBody_buf, h, ← md5_length (gen i), List.drop_left]
        rw [ih (i + 1) _ hbuf h0, show i + 1 + n - 1 = i + (n + 1) - 1 by omega]

theorem runCount_counters (pattern : List Nat) (gen : Nat → List Nat) :
    ∀ (n i : Nat) (s : LoopState),
      (runCount pattern gen n i s).revEvents.filterMap progOf =
        (markersFrom s.k i n).reverse ++ s.revEvents.filterMap progOf := by
  intro n
  induction n with
  | zero => intro i s; simp [runCount, markersFrom]
  | succ n ih =>
      intro i s
      rw [runCount, ih (i + 1)]
      have hk := loopBody_k pattern gen i s
      have hev : (loopBody pattern gen i s).revEvents.filterMap progOf =
          (if i % 10000000 = 0 then [s.k + 1] else []) ++
            s.revEvents.filterMap progOf := by
        rw [loopBody_revEvents]
        split <;> split <;> simp [progOf]
      rw [hev, hk, markersFrom]
      split <;> simp

theorem markersFrom_eq_range' :
    ∀ (n k i : Nat), markersFrom k i n = List.range' (k + 1) (countMarks i n) := by
  intro n
  induction n with
  | zero => intro k i; simp [markersFrom, countMarks]
  | succ n ih =>
      intro k i
      rw [markersFrom, countMarks]
      split
      · rw [ih (k + 1) (i + 1), Nat.add_comm 1 (countMarks (i + 1) n),
          List.range'_succ]
      · rw [ih k (i + 1)]
        simp

theorem countMarks_eq_div :
    ∀ (n i : Nat), 1 ≤ i →
      countMarks i n = (i + n - 1) / 10000000 - (i - 1) / 10000000 := by
  intro n
  induction n with
  | zero => intro i h; simp [countMarks]
  | succ n ih =>
      intro i h
      rw [countMarks, ih (i + 1) (by omega)]
      have h2 : i = i - 1 + 1 := by omega
      have hstep : i / 10000000 = (i - 1) / 10000000 +
          if 10000000 ∣ i then 1 else 0 := by
        rw [h2] at h ⊢
        rw [Nat.succ_div]
        simp
      have hmono1 : (i - 1) / 10000000 ≤ i / 10000000 :=
        Nat.div_le_div_right (by omega)
      have hmono2 : i / 10000000 ≤ (i + n) / 10000000 :=
        Nat.div_le_div_right (by omega)
      have hdvd : i % 10000000 = 0 ↔ 10000000 ∣ i :=
        Nat.dvd_iff_mod_eq_zero.symm
      rw [show i + (n + 1) - 1 = i + n by omega,
        show i + 1 + n - 1 = i + n by omega, show i + 1 - 1 = i by omega]
      split
      · next hc =>
          rw [if_pos (hdvd.mp hc)] at hstep
          omega
      · next hc =>
          rw [if_neg (fun hd => hc (hdvd.mpr hd))] at hstep
          omega

theorem runCount_matched_all (pattern : List Nat) (gen : Nat → List Nat)
    (hall : ∀ j : Nat, substrFind pattern (md5 (gen j) ++ zeros114) = true) :
    ∀ (n i : Nat) (s : LoopState), s.buf.drop 16 = zeros114 →
      ((runCount pattern gen n i s).revEvents.filterMap matchedOf).length =
        n + (s.revEvents.filterMap matchedOf).length := by
  intro n
  induction n with
  | zero => intro i s _; simp [runCount]
  | succ n ih =>
      intro i s h
      have hbuf : (loopBody pattern gen i s).buf.drop 16 = zeros114 := by
        rw [loopBody_buf, h, ← md5_length (gen i), List.drop_left]
      rw [runCount, ih (i + 1) _ hbuf]
      have hev : ((loopBody pattern gen i s).revEvents.filterMap matchedOf).length =
          1 + (s.revEvents.filterMap matchedOf).length := by
        rw [loopBody_revEvents, h, if_pos (hall i)]
        split <;> simp [matchedOf] <;> omega
      rw [hev]
      omega

/-! Section: Claims -/

/-- C1 (code bug): `generate_string` indexes the charset with
`rand() % sizeof(charset) - 1`, i.e. `(rand() % 36) - 1`; whenever
`rand() % 36 = 0` (here `rand()` returning 36) this reads `charset[-1]`,
outside the array (modelled `none`), so the produced character is not drawn
from the declared character set.  The length part of the claim holds, and
every other residue does yield a character of the set (sampled here at rand
values 1 and 2, giving the characters `0` and `1`). -/
theorem generate_string_oob :
    generate_string (fun _ => 36) 1 = [none] ∧
    (generate_string (fun _ => 36) 1).length = 1 ∧
    generate_string (fun i => i + 1) 2 = [some 48, some 49] ∧
    48 ∈ charset ∧ 49 ∈ charset := by decide

/-- C4: for every iteration bound, the progress markers are emitted exactly at
the loop indices that are positive multiples of 10000000 and below the
bound: their counters form the list `1, 2, ..., (ulimit - 1) / 10000000`,
strictly increasing with first element 1. -/
theorem progress_markers (substr : List Nat) (gen : Nat → List Nat)
    (ulimit : Nat) :
    progressCounters (search_md5_containing substr gen ulimit) =
      List.range' 1 ((ulimit - 1) / 10000000) ∧
    (progressCounters (search_md5_containing substr gen ulimit)).Pairwise (· < ·) ∧
    (0 < (ulimit - 1) / 10000000 →
      (progressCounters (search_md5_containing substr gen ulimit)).head? =
        some 1) := by
  have hmain : progressCounters (search_md5_containing substr gen ulimit) =
      List.range' 1 ((ulimit - 1) / 10000000) := by
    rw [progressCounters, events, search_eq_runCount, List.filterMap_reverse,
      runCount_counters]
    rw [show initState.revEvents = [] from rfl, show initState.k = 0 from rfl]
    rw [markersFrom_eq_range', countMarks_eq_div (ulimit - 1) 1 (by omega),
      show 1 + (ulimit - 1) - 1 = ulimit - 1 by omega]
    simp
  refine ⟨hmain, ?_, ?_⟩
  · rw [hmain]
    simp [List.pairwise_lt_range']
  · intro hq
    rw [hmain]
    obtain ⟨m, hm⟩ := Nat.exists_eq_succ_of_ne_zero (Nat.pos_iff_ne_zero.mp hq)
    rw [hm, List.range'_succ]
    rfl

/-- Witness for C4 at the concrete bound 10000001: the single progress
marker carries the counter 1. -/
theorem progress_markers_witness :
    progressCounters (search_md5_containing [] (fun _ => []) 10000001) =
      List.range' 1 ((10000001 - 1) / 10000000) ∧
    0 < (10000001 - 1) / 10000000 ∧
    (progressCounters (search_md5_containing [] (fun _ => []) 10000001)).head? =
      some 1 := by
  have h := progress_markers [] (fun _ => []) 10000001
  exact ⟨h.1, by decide, h.2.2 (by decide)⟩

/-- C5: with iteration bound 0 the loop terminates immediately: it prints no
output line and executes no iteration. -/
theorem bound_zero_no_output (substr : List Nat) (gen : Nat → List Nat) :
    (search_md5_containing substr gen 0).revEvents = [] ∧
    (search_md5_containing substr gen 0).revIters = [] := by
  rw [search_md5_containing, runFrom]
  simp [initState]

/-- C6: the loop never terminates early on a match: whatever the pattern and
the candidate stream, the executed iteration indices are exactly
`1, ..., ulimit - 1`, so the number of iterations does not depend on how many
candidates match, and a match at any index is followed by all remaining
indices up to the bound. -/
theorem no_early_termination (substr : List Nat) (gen : Nat → List Nat)
    (ulimit : Nat) :
    itersOf (search_md5_containing substr gen ulimit) =
      List.range' 1 (ulimit - 1) ∧
    ∀ (substr2 : List Nat) (gen2 : Nat → List Nat),
      itersOf (search_md5_containing substr gen ulimit) =
        itersOf (search_md5_containing substr2 gen2 ulimit) := by
  have key : ∀ (s2 : List Nat) (g2 : Nat → List Nat),
      itersOf (search_md5_containing s2 g2 ulimit) =
        List.range' 1 (ulimit - 1) := by
    intro s2 g2
    rw [itersOf, search_eq_runCount, runCount_revIters]
    simp [initState]
  exact ⟨key substr gen, fun s2 g2 => (key substr gen).trans (key s2 g2).symm⟩

/-- C9: for every bound `ulimit ≥ 1` the loop body executes exactly
`ulimit - 1` times — the counter starts at 1 and runs while strictly below
the bound — and with the default bound 100 it executes 99 times. -/
theorem iteration_count (substr : List Nat) (gen : Nat → List Nat)
    (ulimit : Nat) (h : 1 ≤ ulimit) :
    (itersOf (search_md5_containing substr gen ulimit)).length = ulimit - 1 ∧
    (itersOf (search_md5_containing substr gen (mainUlimit none))).length = 99 := by
  have key : ∀ u : Nat,
      (itersOf (search_md5_containing substr gen u)).length = u - 1 := by
    intro u
    rw [itersOf, search_eq_runCount, runCount_revIters]
    simp [initState]
  exact ⟨key ulimit, by rw [show mainUlimit none = 100 from rfl, key 100]⟩

/-- Witness for C9 at the concrete bound 3. -/
theorem iteration_count_witness :
    1 ≤ 3 ∧
    ((itersOf (search_md5_containing [] (fun _ => []) 3)).length = 3 - 1 ∧
     (itersOf (search_md5_containing [] (fun _ => []) (mainUlimit none))).length = 99) :=
  ⟨by omega, iteration_count [] (fun _ => []) 3 (by omega)⟩

/-- C7: the hash computation is deterministic and touches only the digest
buffer: if the candidates hashed at iterations `i` and `j` are identical byte
sequences, the digest buffer contents after those iterations are identical. -/
theorem hash_deterministic (substr : List Nat) (gen : Nat → List Nat)
    (i j : Nat) (hi : 1 ≤ i) (hj : 1 ≤ j) (hg : gen i = gen j) :
    (search_md5_containing substr gen (i + 1)).buf =
      (search_md5_containing substr gen (j + 1)).buf := by
  have hinit : initState.buf.drop 16 = zeros114 := by
    simp [initState, zeros114, List.drop_replicate]
  rw [search_eq_runCount, search_eq_runCount,
    show i + 1 - 1 = i by omega, show j + 1 - 1 = j by omega,
    runCount_buf_last _ gen i 1 initState hinit hi,
    runCount_buf_last _ gen j 1 initState hinit hj,
    show 1 + i - 1 = i by omega, show 1 + j - 1 = j by omega, hg]

/-- Witness for C7 with the constant candidate stream, at iterations 1
and 2. -/
theorem hash_deterministic_witness :
    1 ≤ 1 ∧ 1 ≤ 2 ∧
    (fun _ : Nat => [(97 : Nat)]) 1 = (fun _ : Nat => [(97 : Nat)]) 2 ∧
    (search_md5_containing [] (fun _ => [97]) (1 + 1)).buf =
      (search_md5_containing [] (fun _ => [97]) (2 + 1)).buf :=
  ⟨by omega, by omega, rfl,
    hash_deterministic [] (fun _ => [97]) 1 2 (by omega) (by omega) rfl⟩

/-- C10: in every run, the `MD5` call writes only the first 16 bytes of the
130-byte digest string, bytes 16..129 stay zero, and every match test runs
over the 16 raw digest bytes followed by 114 zero bytes (never over a hex
text rendering). -/
theorem raw_digest_buffer (substr : List Nat) (gen : Nat → List Nat)
    (ulimit : Nat) :
    (search_md5_containing substr gen ulimit).buf.drop 16 =
      List.replicate 114 0 ∧
    ∀ t b, OutputEvent.matched t b ∈
        (search_md5_containing substr gen ulimit).revEvents →
      b = md5 t ++ List.replicate 114 0 ∧ (md5 t).length = 16 := by
  have hinit : initState.buf.drop 16 = zeros114 := by
    simp [initState, zeros114, List.drop_replicate]
  have h := runCount_inv (substr.map toLowerByte) gen (ulimit - 1) 1
    initState hinit
  rw [search_eq_runCount]
  refine ⟨h.1, fun t b hb => ?_⟩
  rcases h.2 t b hb with h1 | h1
  · exact ⟨h1, md5_length t⟩
  · exact absurd h1 (by simp [initState])

/-- Witness for C10 at a concrete one-iteration run whose empty pattern
matches. -/
theorem raw_digest_buffer_witness :
    OutputEvent.matched [97] (md5 [97] ++ List.replicate 114 0) ∈
      (search_md5_containing [] (fun _ => [97]) 2).revEvents ∧
    md5 [97] ++ List.replicate 114 0 = md5 [97] ++ List.replicate 114 0 ∧
    (md5 [97]).length = 16 := by
  have hm : OutputEvent.matched [97] (md5 [97] ++ List.replicate 114 0) ∈
      (search_md5_containing [] (fun _ => [97]) 2).revEvents := by
    rw [search_eq_runCount]
    decide
  exact ⟨hm, (raw_digest_buffer [] (fun _ => [97]) 2).2 [97] _ hm⟩

/-- C8 counterexample: in a concrete run, the byte string over which the
substring match is performed has length 130 — the hard-coded buffer size —
which is neither the digest length the hash algorithm defines (16) nor the length of
its hexadecimal text rendering (32), and the buffer is raw digest bytes plus
zeros, not a textual form. -/
theorem digest_text_length_cex :
    matchLines (search_md5_containing [] (fun _ => [97]) 2) =
      [([97], md5 [97] ++ List.replicate 114 0)] ∧
    (md5 [97] ++ List.replicate 114 0).length = 130 ∧
    2 * (md5 [97]).length ≠ 130 ∧ (md5 [97]).length ≠ 130 := by
  rw [matchLines, events, search_eq_runCount]
  decide

/-- C8 amended: for every candidate, the byte string over which the substring
match is performed has fixed length 130, the hard-coded buffer size (16 raw
digest bytes followed by 114 zero bytes) — independent of the input, but a
defensively sized constant rather than a length defined by the hash
algorithm. -/
theorem match_buffer_length_fixed (substr : List Nat) (gen : Nat → List Nat)
    (ulimit : Nat) (t b : List Nat)
    (hb : OutputEvent.matched t b ∈
      (search_md5_containing substr gen ulimit).revEvents) :
    b.length = 130 := by
  have hinit : initState.buf.drop 16 = zeros114 := by
    simp [initState, zeros114, List.drop_replicate]
  have h := runCount_inv (substr.map toLowerByte) gen (ulimit - 1) 1
    initState hinit
  rw [search_eq_runCount] at hb
  rcases h.2 t b hb with h1 | h1
  · rw [h1]
    simp [zeros114, md5_length]
  · exact absurd h1 (by simp [initState])

/-- Witness for C8 amended at a concrete one-iteration run. -/
theorem match_buffer_length_fixed_witness :
    OutputEvent.matched [98] (md5 [98] ++ List.replicate 114 0) ∈
      (search_md5_containing [] (fun _ => [98]) 2).revEvents ∧
    (md5 [98] ++ List.replicate 114 0).length = 130 := by
  have hm : OutputEvent.matched [98] (md5 [98] ++ List.replicate 114 0) ∈
      (search_md5_containing [] (fun _ => [98]) 2).revEvents := by
    rw [search_eq_runCount]
    decide
  exact ⟨hm, match_buffer_length_fixed [] (fun _ => [98]) 2 [98] _ hm⟩

/-- C2 counterexample: with the argument "abc" (bytes 97, 98, 99), which is
not a valid unsigned integer, the bound used by the search is the result 0 of `strtoul`, not the claimed default 100. -/
theorem default_bound_cex :
    mainUlimit (some [97, 98, 99]) = 0 ∧
    mainUlimit (some [97, 98, 99]) ≠ 100 := by decide

/-- C2 amended: when the argument is absent the bound is 100, and a valid
unsigned integer below `2^31` gives that parsed value; but an argument
without leading digits parses to 0 via `strtoul`, so an invalid argument
yields the bound 0 rather than falling back to 100. -/
theorem default_bound_amended (s : List Nat) (h1 : s ≠ [])
    (h2 : ∀ c ∈ s, isDigitByte c = true) (h3 : digitsVal s < 2147483648) :
    mainUlimit none = 100 ∧
    mainUlimit (some s) = digitsVal s ∧
    mainUlimit (some [97, 98, 99]) = 0 := by
  refine ⟨rfl, ?_, by decide⟩
  rcases s with _ | ⟨c, rest⟩
  · exact absurd rfl h1
  · have hc := h2 c (List.mem_cons_self c rest)
    have hc2 : 48 ≤ c ∧ c ≤ 57 := by simpa [isDigitByte] using hc
    have hsp : isSpaceByte c = false := by
      simp only [isSpaceByte]
      simp
      omega
    have hdrop : (c :: rest).dropWhile isSpaceByte = c :: rest := by
      simp [List.dropWhile, hsp]
    have htake : (c :: rest).takeWhile isDigitByte = c :: rest :=
      List.takeWhile_eq_self_iff.mpr h2
    have hb45 : (c == 45) = false := by
      simp only [beq_eq_false_iff_ne, ne_eq]
      omega
    have hb43 : (c == 43) = false := by
      simp only [beq_eq_false_iff_ne, ne_eq]
      omega
    have hv : strtoul10 (c :: rest) = digitsVal (c :: rest) := by
      simp only [strtoul10, hdrop, List.headD_cons, hb45, hb43]
      simp only [Bool.or_self, Bool.false_eq_true, if_false, htake]
      rw [if_neg (by omega)]
    have hlt32 : digitsVal (c :: rest) < 4294967296 := by omega
    rw [mainUlimit, hv, ulongToInt, Nat.mod_eq_of_lt hlt32, if_pos h3,
      intToSizeT, Int.emod_eq_of_lt (by positivity)
        (by exact_mod_cast (by omega : digitsVal (c :: rest) < 18446744073709551616))]
    simp

/-- Witness for C2 amended, with the valid argument "5" (byte 53). -/
theorem default_bound_amended_witness :
    ([53] : List Nat) ≠ [] ∧ (∀ c ∈ ([53] : List Nat), isDigitByte c = true) ∧
    digitsVal [53] < 2147483648 ∧
    (mainUlimit none = 100 ∧ mainUlimit (some [53]) = digitsVal [53] ∧
     mainUlimit (some [97, 98, 99]) = 0) :=
  ⟨by decide, by decide, by decide,
    default_bound_amended [53] (by decide) (by decide) (by decide)⟩

/-- C3 (code bug): with bound 100 and the single-character pattern `"z"`
(byte 122, outside the hexadecimal digit ranges 48..57 and 97..102), the run
whose generated candidates all equal `c10 = "aaaaaaaa09"` (ten characters of
the charset) emits 99 match lines rather than zero: the match runs over the
16 raw digest bytes (plus 114 zeros), and `md5 c10` contains the byte 122. -/
theorem nonhex_pattern_matches :
    (matchLines (search_md5_containing [122] (fun _ => c10) 100)).length = 99 ∧
    (∀ c ∈ c10, c ∈ charset) ∧ c10.length = 10 ∧
    ¬ (48 ≤ 122 ∧ (122 : Nat) ≤ 57) ∧ ¬ (97 ≤ 122 ∧ (122 : Nat) ≤ 102) := by
  refine ⟨?_, by decide, by decide, by decide, by decide⟩
  have hall : ∀ j : Nat, substrFind (List.map toLowerByte [122])
      (md5 ((fun _ : Nat => c10) j) ++ zeros114) = true := by
    intro j
    show substrFind (List.map toLowerByte [122]) (md5 c10 ++ zeros114) = true
    decide
  have hinit : initState.buf.drop 16 = zeros114 := by
    simp [initState, zeros114, List.drop_replicate]
  rw [matchLines, events, search_eq_runCount, List.filterMap_reverse,
    List.length_reverse,
    runCount_matched_all (List.map toLowerByte [122]) _ hall (100 - 1) 1
      initState hinit]
  simp [initState]

end MD5Checker
